import Mathlib

/-!
Verification of the query-execution pipeline of a TypeScript SDK that drives a
command-line AI agent: the output Normalizer (`parseMessage`), the interceptor
chain (`buildInterceptorChain`, `executeWithTimeout`), the memoizing response
consumer, and session continuation.  Each definition is a shallow embedding of
the corresponding source function; stateful code is modelled by explicit state
passing, JavaScript promises settling at some delay are modelled by a settle
time, and thrown JavaScript errors are modelled by `Except` with an error value
carrying the `name`, `message` and `stack` fields of a JS `Error`.
-/

namespace ClaudeSDK

/-- Content blocks carried inside assistant messages (text, tool invocation,
tool result), passed through the Normalizer unchanged. -/
inductive ContentBlock where
  | text (text : String)
  | toolUse (name : String) (input : String)
  | toolResult (content : String) (isError : Bool)
deriving DecidableEq, Repr

/-- The nested `message` wrapper of a raw `assistant` CLI record. -/
structure CLIMessageBody where
  content : List ContentBlock
deriving DecidableEq, Repr

/-- The `cost` sub-record of a raw `result` CLI record. -/
structure CLICostRecord where
  total_cost_usd : Option Rat
deriving DecidableEq, Repr

/-- The `error` payload of a raw `error` CLI record. -/
structure CLIErrorPayload where
  message : Option String
deriving DecidableEq, Repr

/-- A raw line-delimited output record of the CLI process, discriminated by its
`type` field; `other` stands for any unrecognized `type` string. -/
inductive CLIOutput where
  | assistant (message : Option CLIMessageBody) (session_id : Option String)
  | system (subtype : Option String) (data_session_id : Option String)
  | result (subtype : Option String) (content : Option String)
      (session_id : Option String) (usage : Option String)
      (cost : Option CLICostRecord)
  | error (err : Option CLIErrorPayload)
  | other (ty : String)
deriving DecidableEq, Repr

/-- The `type` discriminator string of a raw record. -/
def CLIOutput.typeTag : CLIOutput → String
  | .assistant _ _ => "assistant"
  | .system _ _ => "system"
  | .result _ _ _ _ _ => "result"
  | .error _ => "error"
  | .other ty => ty

/-- A typed message yielded downstream by the Normalizer.  The `system` variant
exists in the SDK message type (the session scanner checks for it) even though
`parseMessage` never yields it. -/
inductive Message where
  | assistant (content : List ContentBlock) (session_id : Option String)
  | result (subtype : Option String) (content : String)
      (session_id : Option String) (usage : Option String)
      (cost_total_cost : Option Rat)
  | system (subtype : Option String) (data_session_id : Option String)
deriving DecidableEq, Repr

/-- Top-level `session_id` field of a message (`system` messages carry theirs
inside `data` instead; see `extractSessionId`). -/
def Message.session_id : Message → Option String
  | .assistant _ sid => sid
  | .result _ _ sid _ _ => sid
  | .system _ _ => none

/-- Modelled from the spec: the error-kind taxonomy of §7 — `src/errors.ts`
(`detectErrorType` / `createTypedError`) is not among the provided source
files; classification is best-effort pattern matching over message text into
authentication, rate-limit, permission-denied or generic kinds. -/
inductive ErrorType where
  | authentication
  | rateLimit
  | permissionDenied
  | generic
deriving DecidableEq, Repr

/-- A typed error thrown by the Normalizer: the classified kind plus the raw
message and the raw error payload as detail. -/
structure TypedError where
  kind : ErrorType
  message : String
  detail : Option CLIErrorPayload
deriving DecidableEq, Repr

/-- `true` when `pat` occurs as a substring of `s` (executable check). -/
def containsSubstr (s pat : String) : Bool :=
  (s.splitOn pat).length > 1

/-- Modelled from the spec: `detectErrorType` classifies a process-reported
error message by pattern matching over its text (§7); the exact patterns are
best-effort and not part of any claim. -/
def detectErrorType (message : String) : ErrorType :=
  if containsSubstr message "auth" then .authentication
  else if containsSubstr message "rate limit" then .rateLimit
  else if containsSubstr message "permission" then .permissionDenied
  else .generic

/-- Modelled from the spec: `createTypedError` builds the typed error carrying
the classified kind plus raw detail (§7). -/
def createTypedError (kind : ErrorType) (message : String)
    (detail : Option CLIErrorPayload) : TypedError :=
  ⟨kind, message, detail⟩

/-- JavaScript `x || d` on an optional string: `undefined` and the empty
string are falsy and fall back to the default. -/
def jsOrString (o : Option String) (d : String) : String :=
  match o with
  | some s => if s = "" then d else s
  | none => d

/-- `InternalClient.parseMessage`: maps one raw record to either `none`
(suppressed), one message, or a thrown typed error.  A pure function of the
single record, mirroring the `switch` on `output.type` in the source. -/
def parseMessage : CLIOutput → Except TypedError (Option Message)
  | .assistant message session_id =>
    match message with
    | some body => .ok (some (.assistant body.content session_id))
    | none => .ok (some (.assistant [] session_id))
  | .system _ _ => .ok none
  | .result subtype content session_id usage cost =>
    .ok (some (.result subtype (jsOrString content "") session_id usage
      (cost.bind CLICostRecord.total_cost_usd)))
  | .error err =>
    let errorMessage := jsOrString (err.bind CLIErrorPayload.message) "Unknown error"
    .error (createTypedError (detectErrorType errorMessage) errorMessage err)
  | .other _ => .ok none

/-- `InternalClient.executeOriginalFlow` at the stream level: parse each raw
record in order, yield the non-suppressed messages, and stop with the typed
error at the first record whose parse throws. -/
def executeOriginalFlow : List CLIOutput → List Message × Option TypedError
  | [] => ([], none)
  | o :: rest =>
    match parseMessage o with
    | .error e => ([], some e)
    | .ok none => executeOriginalFlow rest
    | .ok (some m) =>
      let r := executeOriginalFlow rest
      (m :: r.1, r.2)

/-- The message (if any) a single raw record contributes to the yielded
stream when it does not throw. -/
def CLIOutput.normalYield (o : CLIOutput) : Option Message :=
  match parseMessage o with
  | .ok r => r
  | .error _ => none

/-! ## Response Consumer (`ResponseParser`) -/

/-- Modelled from the spec: `src/parser.ts` (`ResponseParser`) is not among the
provided source files, only its callers and subclass are.  §4.4: the consumer
wraps one underlying message stream (`source`, with `drains` counting how often
that generator is iterated), and `consume` drains it once into the
consumed-message cache (`messages`), guarded by the `consumed` flag. -/
structure ResponseParser where
  source : List Message
  messages : List Message
  consumed : Bool
  drains : Nat
deriving DecidableEq, Repr

/-- A freshly constructed consumer over a given underlying stream. -/
def ResponseParser.mk0 (source : List Message) : ResponseParser :=
  ⟨source, [], false, 0⟩

/-- Modelled from the spec: `consume` — if already consumed, return at once;
otherwise drain the whole underlying stream into the cache exactly once. -/
def ResponseParser.consume (p : ResponseParser) : ResponseParser :=
  if p.consumed then p
  else { p with messages := p.source, consumed := true, drains := p.drains + 1 }

/-- The extraction methods of the Response Consumer (§4.4). -/
inductive ExtractMethod where
  | asText
  | asResult
  | asRawMessages
  | asJSON
  | asToolResults
  | getUsage
  | isSuccess
  | getSessionId
deriving DecidableEq, Repr

/-- Modelled from the spec: every extraction method first calls `consume`; its
state effect is exactly the (idempotent) drain. -/
def ResponseParser.call (p : ResponseParser) (_m : ExtractMethod) : ResponseParser :=
  p.consume

/-- Concatenated text of all text blocks of assistant messages in the cache. -/
def allTextOf (msgs : List Message) : String :=
  String.join (msgs.map fun m =>
    match m with
    | .assistant blocks _ =>
      String.join (blocks.map fun b =>
        match b with
        | .text t => t
        | _ => "")
    | _ => "")

/-- Content of the last `result` message in the cache, if any. -/
def finalResultOf (msgs : List Message) : Option String :=
  msgs.foldl (fun acc m =>
    match m with
    | .result _ c _ _ _ => some c
    | _ => acc) none

/-- JavaScript truthiness of an optional string: `undefined` and `""` are
falsy. -/
def jsTruthyString : Option String → Option String
  | some s => if s = "" then none else some s
  | none => none

/-- `SessionAwareParser.consume`'s scan (fluent source): the first message with
a truthy top-level `session_id`, or a `system` message with a truthy
`data.session_id`, wins; later messages are not inspected. -/
def extractSessionId : List Message → Option String
  | [] => none
  | msg :: rest =>
    match jsTruthyString msg.session_id with
    | some s => some s
    | none =>
      match msg with
      | .system _ d =>
        match jsTruthyString d with
        | some s => some s
        | none => extractSessionId rest
      | _ => extractSessionId rest

/-- The pure view an extraction method computes from the cache (a
representative subset of §4.4's views; what matters for the claims is that
every view is a function of the cache alone). -/
def viewOf (m : ExtractMethod) (msgs : List Message) : Option String :=
  match m with
  | .asText => some (allTextOf msgs)
  | .asResult => finalResultOf msgs
  | .getSessionId => extractSessionId msgs
  | _ => none

/-! ## Session continuation (`Session` in the fluent source) -/

/-- The session wrapper's state: the outbound `options.sessionId` it would send
and the captured session identifier (absent until discovered). -/
structure Session where
  options_sessionId : Option String
  sessionId : Option String
deriving DecidableEq, Repr

/-- `Session.query`, one invocation: if a session id was already captured it is
written into the outbound options (overriding whatever was there) and a plain
consumer is used; otherwise the invocation goes out with the current options
and a session-aware consumer captures (after the full drain, here `stream`)
the discovered identifier, if any.  Returns the new wrapper state and the
outbound `sessionId` this invocation carried. -/
def Session.queryStep (s : Session) (stream : List Message) :
    Session × Option String :=
  match s.sessionId with
  | some sid => (⟨some sid, some sid⟩, some sid)
  | none =>
    match extractSessionId stream with
    | some sid => (⟨s.options_sessionId, some sid⟩, s.options_sessionId)
    | none => (⟨s.options_sessionId, none⟩, s.options_sessionId)

/-- A sequence of invocations through one session wrapper: final state plus
the outbound `sessionId` of each invocation in order. -/
def Session.runQueries : Session → List (List Message) → Session × List (Option String)
  | s, [] => (s, [])
  | s, st :: rest =>
    let r1 := s.queryStep st
    let r2 := r1.1.runQueries rest
    (r2.1, r1.2 :: r2.2)

/-! ## Interceptor chain (`InternalClient`) -/

/-- The resolved invocation configuration relevant to the claims. -/
structure ClaudeCodeOptions where
  model : Option String := none
  sessionId : Option String := none
  timeout : Option Nat := none
deriving DecidableEq, Repr

/-- `InterceptorRequest`: mutable prompt plus options plus the original
prompt. -/
structure InterceptorRequest where
  prompt : String
  options : ClaudeCodeOptions := {}
  originalPrompt : Option String := none
deriving DecidableEq, Repr

/-- `InterceptorContext` (the fields the claims touch; the source's map is
open-ended). -/
structure InterceptorContext where
  requestId : Option String := none
  sessionId : Option String := none
  correlationId : Option String := none
deriving DecidableEq, Repr

/-- `InterceptorResponse`: the resulting message stream. -/
structure InterceptorResponse where
  messages : List Message
deriving DecidableEq, Repr

/-- A thrown JavaScript error: its `name`, `message` and `stack` fields. -/
structure JSError where
  name : String
  message : String
  stack : Option String
deriving DecidableEq, Repr

/-- `new InterceptorTimeoutError(timeout)`: name and message as set by the
class constructor in the source. -/
def interceptorTimeoutError (timeout : Nat) : JSError :=
  ⟨"InterceptorTimeoutError",
    "Interceptor chain timed out after " ++ toString timeout ++ "ms", none⟩

/-- `new InterceptorChainError(message)`: name and message as set by the class
constructor in the source (the source defines this class but the chain never
constructs it). -/
def interceptorChainError (message : String) : JSError :=
  ⟨"InterceptorChainError", "Interceptor chain error: " ++ message, none⟩

/-- Events observable while a chain runs: a numbered interceptor is entered,
returns, or the terminal handler runs.  Instrumentation for the order and
exactly-once claims, the analogue of a call-logging stub. -/
inductive ChainEvent where
  | enter (i : Nat)
  | leave (i : Nat)
  | terminal
deriving DecidableEq, Repr

/-- Chain execution state: the observed event trace.  The chain is sequential
(§5), so one state thread models its execution faithfully. -/
structure ChainState where
  trace : List ChainEvent
deriving DecidableEq, Repr

/-- The `Next` function shape: request and context in, settled outcome out,
with the observation trace threaded through. -/
def NextFn :=
  InterceptorRequest → InterceptorContext → ChainState →
    ChainState × Except JSError InterceptorResponse

/-- An interceptor: its (optional) function name plus its body, which may call
the supplied `next` any number of times, return, or throw. -/
structure Interceptor where
  name : Option String
  run : InterceptorRequest → InterceptorContext → NextFn → ChainState →
    ChainState × Except JSError InterceptorResponse

/-- The error built in the chain's catch block:
`new Error("Interceptor <name> failed: " + error.message)` with the original
stack copied over. -/
def contextualWrap (interceptorName : String) (e : JSError) : JSError :=
  ⟨"Error",
    "Interceptor \x27" ++ interceptorName ++ "\x27 failed: " ++ e.message,
    e.stack⟩

/-- `InternalClient.buildInterceptorChain`: fold the interceptor list from the
right around the terminal handler (`reduceRight`), so the first interceptor in
the list is outermost; each layer try/catches its interceptor and rethrows the
`contextualWrap`ped error.  On the empty list this is the terminal handler
itself, matching the source's early return. -/
def buildInterceptorChain (interceptors : List Interceptor)
    (finalHandler : NextFn) : NextFn :=
  interceptors.foldr
    (fun interceptor next =>
      fun request context st =>
        match interceptor.run request context next st with
        | (st1, Except.ok r) => (st1, Except.ok r)
        | (st1, Except.error e) =>
          (st1, Except.error (contextualWrap (interceptor.name.getD "anonymous") e)))
    finalHandler

/-- A terminal handler instrumented to record its own execution; it stands for
the Transport+Normalizer flow in the order/arity claims. -/
def probedFinal : NextFn :=
  fun _ _ st => (⟨st.trace ++ [ChainEvent.terminal]⟩, Except.ok ⟨[]⟩)

/-- A well-behaved interceptor with index `i`: records entry, calls `next`
exactly once with request and context unchanged, records its return, and
passes results and errors through untouched. -/
def probe (i : Nat) : Interceptor where
  name := some ("probe" ++ toString i)
  run := fun request context next st =>
    match next request context ⟨st.trace ++ [ChainEvent.enter i]⟩ with
    | (st1, Except.ok r) => (⟨st1.trace ++ [ChainEvent.leave i]⟩, Except.ok r)
    | (st1, Except.error e) => (st1, Except.error e)

/-- An interceptor that throws a plain JS `Error` with the given message and
stack without calling `next`. -/
def throwingInterceptor (interceptorName msg : String) (stack : Option String) :
    Interceptor where
  name := some interceptorName
  run := fun _ _ _ st => (st, Except.error ⟨"Error", msg, stack⟩)

/-- An interceptor that calls its `next` twice, returning the second outcome
(and propagating a first-call error). -/
def doubleNextInterceptor : Interceptor where
  name := some "doubleCaller"
  run := fun request context next st =>
    match next request context st with
    | (st1, Except.ok _) => next request context st1
    | (st1, Except.error e) => (st1, Except.error e)

/-! ## Timeout race and configuration defaults -/

/-- The user-supplied `InterceptorConfig`: `none` in a field means the key was
not supplied (so the constructor's spread leaves the default in place). -/
structure InterceptorConfig where
  interceptors : Option (List Interceptor) := none
  debug : Option Bool := none
  timeout : Option Nat := none
  maxContextSize : Option Nat := none

/-- The configuration after the constructor's merge. -/
structure ResolvedInterceptorConfig where
  debug : Bool
  timeout : Nat
  maxContextSize : Nat
deriving DecidableEq, Repr

/-- The `InternalClient` constructor's merge
`{ debug: false, timeout: 30000, maxContextSize: 1024*1024, ...interceptorConfig }`:
a supplied key overrides the default, an absent key keeps it. -/
def resolveInterceptorConfig (userConfig : InterceptorConfig) :
    ResolvedInterceptorConfig where
  debug := userConfig.debug.getD false
  timeout := userConfig.timeout.getD 30000
  maxContextSize := userConfig.maxContextSize.getD (1024 * 1024)

/-- `this.interceptors = interceptorConfig.interceptors || []` (a present
array, even empty, is truthy in JS, so this is exactly `getD []`). -/
def resolveInterceptors (userConfig : InterceptorConfig) : List Interceptor :=
  userConfig.interceptors.getD []

instance {ε α : Type} [DecidableEq ε] [DecidableEq α] : DecidableEq (Except ε α) := fun a b =>
  match a, b with
  | .ok x, .ok y =>
    if h : x = y then isTrue (by rw [h])
    else isFalse (by intro hc; cases hc; exact h rfl)
  | .error x, .error y =>
    if h : x = y then isTrue (by rw [h])
    else isFalse (by intro hc; cases hc; exact h rfl)
  | .ok _, .error _ => isFalse (by intro hc; cases hc)
  | .error _, .ok _ => isFalse (by intro hc; cases hc)

/-- A promise settling at `time` milliseconds with a resolution or a
rejection. -/
structure TimedResult where
  time : Nat
  result : Except JSError InterceptorResponse
deriving DecidableEq, Repr

/-- `InternalClient.executeWithTimeout`: with a falsy configured timeout
(absent key is impossible after the merge; `0` is falsy) the promise is
returned unraced; otherwise `Promise.race` settles with whichever of the chain
promise and the timeout rejection settles first (the chain wins ties, being
already settled when the timer fires). -/
def executeWithTimeout (config : ResolvedInterceptorConfig)
    (chain : TimedResult) : TimedResult :=
  if config.timeout = 0 then chain
  else if chain.time ≤ config.timeout then chain
  else ⟨config.timeout, Except.error (interceptorTimeoutError config.timeout)⟩

/-! ## `processQuery` -/

/-- A failed invocation: either a typed error thrown by the Normalizer mid
stream, or an error propagated out of the interceptor chain. -/
inductive QueryFailure where
  | typed (e : TypedError)
  | chain (e : JSError)
deriving DecidableEq, Repr

/-- What one invocation observably does: the yielded messages, the failure (if
any), and whether the interceptor machinery was engaged at all. -/
structure QueryOutcome where
  messages : List Message
  failure : Option QueryFailure
  contextAllocated : Bool
  timeoutEngaged : Bool
deriving DecidableEq, Repr

/-- The terminal handler over a transport: runs the original flow on the raw
records the process produces for the (possibly interceptor-rewritten) prompt
and returns the resulting message stream as the response. -/
def realFinal (transport : String → List CLIOutput) : NextFn :=
  fun request _ st =>
    (st, Except.ok ⟨(executeOriginalFlow (transport request.prompt)).1⟩)

/-- Invoking Transport + Normalizer directly, with nothing wrapped around it:
the reference behaviour the empty-chain invocation must coincide with. -/
def directTerminalOutcome (prompt : String)
    (transport : String → List CLIOutput) : QueryOutcome where
  messages := (executeOriginalFlow (transport prompt)).1
  failure := (executeOriginalFlow (transport prompt)).2.map QueryFailure.typed
  contextAllocated := false
  timeoutEngaged := false

/-- `InternalClient.processQuery`: with no interceptors, yield the original
flow directly and return (no context object, no timeout race); otherwise
allocate the context, build the chain over the terminal handler, race it
against the configured timeout, and yield the response's messages (the
request/context identifiers are time- and randomness-based in the source and
irrelevant to every claim; the chain path here runs the untimed chain, its
race being the subject of `executeWithTimeout`). -/
def processQuery (interceptors : List Interceptor)
    (config : ResolvedInterceptorConfig) (options : ClaudeCodeOptions)
    (prompt : String) (transport : String → List CLIOutput) : QueryOutcome :=
  if interceptors.isEmpty then
    { messages := (executeOriginalFlow (transport prompt)).1
      failure := (executeOriginalFlow (transport prompt)).2.map QueryFailure.typed
      contextAllocated := false
      timeoutEngaged := false }
  else
    let request : InterceptorRequest :=
      { prompt := prompt, options := options, originalPrompt := some prompt }
    let context : InterceptorContext :=
      { requestId := some "req", sessionId := options.sessionId }
    match buildInterceptorChain interceptors (realFinal transport) request context ⟨[]⟩ with
    | (_, Except.ok r) =>
      { messages := r.messages, failure := none
        contextAllocated := true, timeoutEngaged := config.timeout ≠ 0 }
    | (_, Except.error e) =>
      { messages := [], failure := some (QueryFailure.chain e)
        contextAllocated := true, timeoutEngaged := config.timeout ≠ 0 }

/-! ## Theorems -/

lemma jsOrString_empty (c : Option String) : jsOrString c "" = c.getD "" := by
  cases c with
  | none => rfl
  | some s => by_cases h : s = "" <;> simp [jsOrString, h]

/-- C1: `parseMessage` sends each raw record to exactly one outcome determined
by its type: `system` and unrecognized records are suppressed; an `assistant`
record yields an assistant message carrying exactly the nested content blocks
(empty when the wrapper is absent) and the session identifier; a `result`
record yields a result message whose content is the record content or `""`
when absent, whose session identifier and usage pass through unchanged and
whose cost total equals the `total_cost_usd` field; an `error` record yields
no message and instead throws the typed error classified from its message
text.  The mapping is a pure function of the single record by construction. -/
theorem parseMessage_normalizes :
    (∀ st d, parseMessage (.system st d) = .ok none) ∧
    (∀ t, parseMessage (.other t) = .ok none) ∧
    (∀ body sid, parseMessage (.assistant (some body) sid) =
      .ok (some (.assistant body.content sid))) ∧
    (∀ sid, parseMessage (.assistant none sid) = .ok (some (.assistant [] sid))) ∧
    (∀ st c sid u cost, parseMessage (.result st c sid u cost) =
      .ok (some (.result st (c.getD "") sid u (cost.bind CLICostRecord.total_cost_usd)))) ∧
    (∀ err,
      parseMessage (.error err) =
        .error ⟨detectErrorType (jsOrString (err.bind CLIErrorPayload.message) "Unknown error"),
          jsOrString (err.bind CLIErrorPayload.message) "Unknown error", err⟩) := by
  refine ⟨fun st d => rfl, fun t => rfl, fun body sid => rfl, fun sid => rfl,
    fun st c sid u cost => ?_, fun err => rfl⟩
  simp [parseMessage, jsOrString_empty]

/-- C9 counterexample: the record type `"custom"` is neither `"system"` nor
`"error"`, yet the flow yields no message for it (the default branch of
`parseMessage` suppresses unrecognized types), so such a record is dropped. -/
theorem unknown_record_dropped :
    CLIOutput.typeTag (.other "custom") ≠ "system" ∧
    CLIOutput.typeTag (.other "custom") ≠ "error" ∧
    executeOriginalFlow [.other "custom"] = ([], none) :=
  ⟨by decide, by decide, rfl⟩

/-- C9 amended: messages are yielded in exactly the temporal order of the raw
records — on an error-free stream the output is the in-order `filterMap` of
the per-record normalization — and every `assistant` or `result` record yields
exactly one message, while `system` records and records of unrecognized type
yield none. -/
theorem normalizer_order (raw : List CLIOutput)
    (h : ∀ o ∈ raw, o.typeTag ≠ "error") :
    (executeOriginalFlow raw).1 = raw.filterMap CLIOutput.normalYield ∧
    (executeOriginalFlow raw).2 = none ∧
    (∀ body sid, (CLIOutput.normalYield (.assistant body sid)).isSome) ∧
    (∀ st c sid u cost, (CLIOutput.normalYield (.result st c sid u cost)).isSome) ∧
    (∀ st d, CLIOutput.normalYield (.system st d) = none) ∧
    (∀ t, CLIOutput.normalYield (.other t) = none) := by
  have yield_assistant : ∀ body sid,
      (CLIOutput.normalYield (.assistant body sid)).isSome := by
    intro body sid
    cases body <;> simp [CLIOutput.normalYield, parseMessage]
  refine ⟨?_, ?_, yield_assistant,
    fun st c sid u cost => by simp [CLIOutput.normalYield, parseMessage],
    fun st d => rfl, fun t => rfl⟩ <;>
  · induction raw with
    | nil => rfl
    | cons o rest ih =>
      have ho : o.typeTag ≠ "error" := h o (by simp)
      have hrest := ih (fun x hx => h x (by simp [hx]))
      cases o with
      | assistant body sid =>
        cases body <;>
          simpa [executeOriginalFlow, parseMessage, CLIOutput.normalYield] using hrest
      | result st c sid u cost =>
        simpa [executeOriginalFlow, parseMessage, CLIOutput.normalYield] using hrest
      | system st d =>
        simpa [executeOriginalFlow, parseMessage, CLIOutput.normalYield] using hrest
      | error e => simp [CLIOutput.typeTag] at ho
      | other t =>
        simpa [executeOriginalFlow, parseMessage, CLIOutput.normalYield] using hrest

/-- A concrete error-free raw stream exercising every non-`error` record
shape. -/
def rawStreamW : List CLIOutput :=
  [.assistant (some ⟨[.text "Hello"]⟩) (some "s1"),
   .system (some "init") (some "s1"),
   .result (some "success") (some "Hello") (some "s1") (some "usage") (some ⟨some 1⟩),
   .other "custom"]

/-- Witness for C9 amended: the theorem applied to `rawStreamW`. -/
theorem normalizer_order_witness :
    (∀ o ∈ rawStreamW, CLIOutput.typeTag o ≠ "error") ∧
    ((executeOriginalFlow rawStreamW).1 = rawStreamW.filterMap CLIOutput.normalYield ∧
     (executeOriginalFlow rawStreamW).2 = none ∧
     (∀ body sid, (CLIOutput.normalYield (.assistant body sid)).isSome) ∧
     (∀ st c sid u cost, (CLIOutput.normalYield (.result st c sid u cost)).isSome) ∧
     (∀ st d, CLIOutput.normalYield (.system st d) = none) ∧
     (∀ t, CLIOutput.normalYield (.other t) = none)) :=
  ⟨by decide, normalizer_order rawStreamW (by decide)⟩

lemma call_of_consumed {p : ResponseParser} (h : p.consumed = true)
    (m : ExtractMethod) : p.call m = p := by
  simp [ResponseParser.call, ResponseParser.consume, h]

lemma foldl_call_of_consumed {p : ResponseParser} (h : p.consumed = true)
    (calls : List ExtractMethod) : calls.foldl ResponseParser.call p = p := by
  induction calls with
  | nil => rfl
  | cons c rest ih => simpa [call_of_consumed h] using ih

/-- C2: over any nonempty sequence of extraction calls on one fresh consumer,
the underlying stream is drained exactly once — the first call fills the
cache, every later call (same or different method) leaves the state untouched
(hence never re-iterates the source), and each view is computed from the
cache, which equals the full source stream. -/
theorem consumer_at_most_once (source : List Message) (calls : List ExtractMethod)
    (h : calls ≠ []) :
    (calls.foldl ResponseParser.call (ResponseParser.mk0 source)).drains = 1 ∧
    (calls.foldl ResponseParser.call (ResponseParser.mk0 source)).messages = source ∧
    (calls.foldl ResponseParser.call (ResponseParser.mk0 source)).consumed = true ∧
    (∀ m, (calls.foldl ResponseParser.call (ResponseParser.mk0 source)).call m =
      calls.foldl ResponseParser.call (ResponseParser.mk0 source)) ∧
    (∀ m, viewOf m (calls.foldl ResponseParser.call (ResponseParser.mk0 source)).messages =
      viewOf m source) := by
  match calls, h with
  | c :: rest, _ =>
    have hfirst : (ResponseParser.mk0 source).call c =
        ⟨source, source, true, 1⟩ := rfl
    have hrest : (c :: rest).foldl ResponseParser.call (ResponseParser.mk0 source) =
        (⟨source, source, true, 1⟩ : ResponseParser) := by
      simpa [List.foldl, hfirst] using foldl_call_of_consumed rfl rest
    refine ⟨by simp [hrest], by simp [hrest], by simp [hrest], fun m => ?_, fun m => ?_⟩
    · rw [hrest]
      exact call_of_consumed rfl m
    · simp [hrest]

/-- A concrete message stream for the consumer witnesses. -/
def consumedW : List Message :=
  [.assistant [.text "Hello"] (some "s1"),
   .result (some "success") "Hello" (some "s1") none (some 1)]

/-- Witness for C2: two distinct extraction calls on one fresh consumer over
`consumedW` drain its source exactly once. -/
theorem consumer_at_most_once_witness :
    ([ExtractMethod.asText, ExtractMethod.getSessionId] ≠ ([] : List ExtractMethod)) ∧
    (([ExtractMethod.asText, ExtractMethod.getSessionId].foldl ResponseParser.call
        (ResponseParser.mk0 consumedW)).drains = 1 ∧
     ([ExtractMethod.asText, ExtractMethod.getSessionId].foldl ResponseParser.call
        (ResponseParser.mk0 consumedW)).messages = consumedW ∧
     ([ExtractMethod.asText, ExtractMethod.getSessionId].foldl ResponseParser.call
        (ResponseParser.mk0 consumedW)).consumed = true ∧
     (∀ m, ([ExtractMethod.asText, ExtractMethod.getSessionId].foldl ResponseParser.call
        (ResponseParser.mk0 consumedW)).call m =
        [ExtractMethod.asText, ExtractMethod.getSessionId].foldl ResponseParser.call
          (ResponseParser.mk0 consumedW)) ∧
     (∀ m, viewOf m ([ExtractMethod.asText, ExtractMethod.getSessionId].foldl
          ResponseParser.call (ResponseParser.mk0 consumedW)).messages =
        viewOf m consumedW)) :=
  ⟨by decide, consumer_at_most_once consumedW
    [ExtractMethod.asText, ExtractMethod.getSessionId] (by decide)⟩

lemma runQueries_captured (sid : String) (o : Option String)
    (streams : List (List Message)) :
    Session.runQueries ⟨o, some sid⟩ streams =
      (⟨(if streams.isEmpty then o else some sid), some sid⟩,
        streams.map fun _ => some sid) := by
  induction streams generalizing o with
  | nil => rfl
  | cons st rest ih => simp [Session.runQueries, Session.queryStep, ih]

lemma runQueries_passthrough (opts : Option String) (streams : List (List Message))
    (h : ∀ st ∈ streams, extractSessionId st = none) :
    Session.runQueries ⟨opts, none⟩ streams =
      (⟨opts, none⟩, streams.map fun _ => opts) := by
  induction streams with
  | nil => rfl
  | cons st rest ih =>
    have h0 : extractSessionId st = none := h st (by simp)
    have hrest := ih (fun x hx => h x (by simp [hx]))
    simp [Session.runQueries, Session.queryStep, h0, hrest]

/-- C4: through one session wrapper, invocations whose drained streams carry
no session identifier are stateless pass-throughs (outbound configuration
unchanged, no error); the first invocation whose stream carries one captures
it exactly once, and every later invocation goes out with exactly that
identifier injected, overriding the configured one; once captured the
identifier never changes, whatever later streams contain. -/
theorem session_capture (opts : Option String) (pre post : List (List Message))
    (hit : List Message) (sid : String)
    (hpre : ∀ st ∈ pre, extractSessionId st = none)
    (hhit : extractSessionId hit = some sid) :
    (Session.runQueries ⟨opts, none⟩ (pre ++ hit :: post)).1.sessionId = some sid ∧
    (Session.runQueries ⟨opts, none⟩ (pre ++ hit :: post)).2 =
      pre.map (fun _ => opts) ++ opts :: post.map (fun _ => some sid) ∧
    (∀ streams, (∀ st ∈ streams, extractSessionId st = none) →
      Session.runQueries ⟨opts, none⟩ streams =
        (⟨opts, none⟩, streams.map fun _ => opts)) ∧
    (∀ opts2 streams,
      (Session.runQueries ⟨opts2, some sid⟩ streams).1.sessionId = some sid) := by
  refine ⟨?_, ?_, fun streams h => runQueries_passthrough opts streams h,
    fun opts2 streams => by simp [runQueries_captured sid opts2 streams]⟩ <;>
  · induction pre with
    | nil => simp [Session.runQueries, Session.queryStep, hhit, runQueries_captured]
    | cons p pre ih =>
      have h0 : extractSessionId p = none := hpre p (by simp)
      have hpre2 : ∀ st ∈ pre, extractSessionId st = none :=
        fun x hx => hpre x (by simp [hx])
      simpa [Session.runQueries, Session.queryStep, h0] using ih hpre2

/-- A stream carrying a session identifier, for the session witness. -/
def hitStreamW : List Message :=
  [.result (some "success") "Hello" (some "s1") none none]

/-- Witness for C4: one empty-identifier invocation, then an invocation whose
stream carries `"s1"`, then two more invocations, all through one wrapper. -/
theorem session_capture_witness :
    (∀ st ∈ [([] : List Message)], extractSessionId st = none) ∧
    extractSessionId hitStreamW = some "s1" ∧
    ((Session.runQueries ⟨some "cfg", none⟩ (([[]] : List (List Message)) ++ hitStreamW :: [[], []])).1.sessionId
        = some "s1" ∧
     (Session.runQueries ⟨some "cfg", none⟩ (([[]] : List (List Message)) ++ hitStreamW :: [[], []])).2 =
       ([[]] : List (List Message)).map (fun _ => some "cfg") ++
         some "cfg" :: ([[], []] : List (List Message)).map (fun _ => some "s1") ∧
     (∀ streams, (∀ st ∈ streams, extractSessionId st = none) →
       Session.runQueries ⟨some "cfg", none⟩ streams =
         (⟨some "cfg", none⟩, streams.map fun _ => some "cfg")) ∧
     (∀ opts2 streams,
       (Session.runQueries ⟨opts2, some "s1"⟩ streams).1.sessionId = some "s1")) :=
  ⟨by decide, by decide,
    session_capture (some "cfg") [[]] [[], []] hitStreamW "s1" (by decide) (by decide)⟩

lemma buildInterceptorChain_cons (ic : Interceptor) (ics : List Interceptor)
    (finalHandler : NextFn) (request : InterceptorRequest)
    (context : InterceptorContext) (st : ChainState) :
    buildInterceptorChain (ic :: ics) finalHandler request context st =
      (match ic.run request context (buildInterceptorChain ics finalHandler) st with
       | (st1, Except.ok r) => (st1, Except.ok r)
       | (st1, Except.error e) =>
         (st1, Except.error (contextualWrap (ic.name.getD "anonymous") e))) := rfl

lemma chain_probe_trace (l : List Nat) (request : InterceptorRequest)
    (context : InterceptorContext) (tr : List ChainEvent) :
    buildInterceptorChain (l.map probe) probedFinal request context ⟨tr⟩ =
      (⟨tr ++ (l.map ChainEvent.enter ++
          ChainEvent.terminal :: l.reverse.map ChainEvent.leave)⟩,
        Except.ok ⟨[]⟩) := by
  induction l generalizing tr with
  | nil => simp [buildInterceptorChain, probedFinal]
  | cons i l ih =>
    rw [List.map_cons, buildInterceptorChain_cons]
    show (match probe i |>.run request context
        (buildInterceptorChain (l.map probe) probedFinal) ⟨tr⟩ with
      | (st1, Except.ok r) => (st1, Except.ok r)
      | (st1, Except.error e) =>
        (st1, Except.error (contextualWrap ((probe i).name.getD "anonymous") e))) = _
    simp only [probe, ih (tr ++ [ChainEvent.enter i])]
    simp [List.append_assoc]

/-- C3: for a chain of `N` well-behaved interceptors (each calls `next`
exactly once and neither short-circuits nor throws) around the terminal
handler, one execution enters interceptor 0 first, then 1, …, then `N - 1`,
then runs the terminal handler, then returns through `N - 1` back to 0 — so
the first interceptor registered is outermost — and the terminal event occurs
exactly once in the observed trace. -/
theorem chain_call_order (N : Nat) (request : InterceptorRequest)
    (context : InterceptorContext) :
    buildInterceptorChain ((List.range N).map probe) probedFinal request context ⟨[]⟩ =
      (⟨(List.range N).map ChainEvent.enter ++
          ChainEvent.terminal :: (List.range N).reverse.map ChainEvent.leave⟩,
        Except.ok ⟨[]⟩) ∧
    ((List.range N).map ChainEvent.enter ++
        ChainEvent.terminal :: (List.range N).reverse.map ChainEvent.leave).count
      ChainEvent.terminal = 1 := by
  constructor
  · simpa using chain_probe_trace (List.range N) request context []
  · have henter : ((List.range N).map ChainEvent.enter).count ChainEvent.terminal = 0 := by
      refine List.count_eq_zero.mpr ?_
      simp
    have hleave : ((List.range N).map ChainEvent.leave).count ChainEvent.terminal = 0 := by
      refine List.count_eq_zero.mpr ?_
      simp
    simp [List.count_append, List.count_cons, henter, hleave]

/-- A fixed request for the concrete chain executions. -/
def req0 : InterceptorRequest := { prompt := "p" }

/-- A fixed context for the concrete chain executions. -/
def ctx0 : InterceptorContext := {}

/-- C5 counterexample: an interceptor named `piiStripper` throwing `boom`
makes the chain rethrow a **plain** `Error` (name `"Error"`), not an
`InterceptorChainError` (whose instances carry name `"InterceptorChainError"`);
and under one enclosing non-catching interceptor the error is wrapped a second
time, so it is not wrapped exactly once either. -/
theorem chain_wrap_not_chainError :
    (buildInterceptorChain [throwingInterceptor "piiStripper" "boom" (some "stk")]
        probedFinal req0 ctx0 ⟨[]⟩).2 =
      Except.error ⟨"Error", "Interceptor \x27piiStripper\x27 failed: boom", some "stk"⟩ ∧
    (interceptorChainError "boom").name = "InterceptorChainError" ∧
    ("Error" : String) ≠ "InterceptorChainError" ∧
    (buildInterceptorChain
        [probe 0, throwingInterceptor "piiStripper" "boom" (some "stk")]
        probedFinal req0 ctx0 ⟨[]⟩).2 =
      Except.error
        ⟨"Error",
          "Interceptor \x27probe0\x27 failed: Interceptor \x27piiStripper\x27 failed: boom",
          some "stk"⟩ :=
  ⟨rfl, rfl, by decide, rfl⟩

/-- C5 amended: when an interceptor throws, the enclosing chain layer rethrows
a plain JS `Error` (name `"Error"`, not the `InterceptorChainError` kind)
whose message is `Interceptor <name> failed: <original message>` — so it
contains both the failing interceptor name and the original message — and
which carries the original stack; each further enclosing interceptor layer
that does not catch wraps once more with its own name, preserving the stack,
so the error is wrapped once per enclosing layer rather than exactly once. -/
theorem chain_error_wrapping (interceptorName msg : String) (stack : Option String)
    (request : InterceptorRequest) (context : InterceptorContext) (st : ChainState) :
    buildInterceptorChain [throwingInterceptor interceptorName msg stack]
        probedFinal request context st =
      (st, Except.error (contextualWrap interceptorName ⟨"Error", msg, stack⟩)) ∧
    contextualWrap interceptorName ⟨"Error", msg, stack⟩ =
      ⟨"Error", "Interceptor \x27" ++ interceptorName ++ "\x27 failed: " ++ msg, stack⟩ ∧
    (∀ i : Nat,
      buildInterceptorChain
          [probe i, throwingInterceptor interceptorName msg stack]
          probedFinal request context st =
        (⟨st.trace ++ [ChainEvent.enter i]⟩,
          Except.error (contextualWrap ("probe" ++ toString i)
            (contextualWrap interceptorName ⟨"Error", msg, stack⟩)))) := by
  refine ⟨rfl, by simp [contextualWrap], fun i => ?_⟩
  rfl

/-- C7 counterexample: a chain whose single interceptor calls `next` twice
runs the terminal handler twice and still resolves successfully — no
chain-level failure is raised before (or after) the second terminal
execution. -/
theorem double_next_runs_terminal_twice :
    buildInterceptorChain [doubleNextInterceptor] probedFinal req0 ctx0 ⟨[]⟩ =
      (⟨[ChainEvent.terminal, ChainEvent.terminal]⟩, Except.ok ⟨[]⟩) ∧
    ([ChainEvent.terminal, ChainEvent.terminal].count ChainEvent.terminal = 2) :=
  ⟨rfl, by decide⟩

/-- C7 amended: the chain does not guard the `next` functions — each call of
`next` invokes the downstream chain once more, so an interceptor calling
`next` twice executes the terminal handler exactly twice and the chain
resolves normally instead of failing. -/
theorem double_next_unguarded (request : InterceptorRequest)
    (context : InterceptorContext) (tr : List ChainEvent) :
    buildInterceptorChain [doubleNextInterceptor] probedFinal request context ⟨tr⟩ =
      (⟨tr ++ [ChainEvent.terminal, ChainEvent.terminal]⟩, Except.ok ⟨[]⟩) := by
  simp [buildInterceptorChain, doubleNextInterceptor, probedFinal]

/-- C6: with a positive configured timeout `T`, a chain promise that has not
settled within `T` loses the race: the invocation fails with the distinct
`InterceptorTimeoutError` at time `T`, strictly before the chain would have
settled. -/
theorem chain_timeout_race (config : ResolvedInterceptorConfig) (chain : TimedResult)
    (hpos : 0 < config.timeout) (hslow : config.timeout < chain.time) :
    executeWithTimeout config chain =
      ⟨config.timeout, Except.error (interceptorTimeoutError config.timeout)⟩ ∧
    (executeWithTimeout config chain).time < chain.time ∧
    (interceptorTimeoutError config.timeout).name = "InterceptorTimeoutError" := by
  have h0 : ¬ config.timeout = 0 := Nat.pos_iff_ne_zero.mp hpos
  have h1 : ¬ chain.time ≤ config.timeout := not_le.mpr hslow
  refine ⟨by simp [executeWithTimeout, h0, h1], ?_, rfl⟩
  simp [executeWithTimeout, h0, h1, hslow]

/-- Interceptor configuration with a 50 ms timeout, as in the spec scenario. -/
def cfg50 : ResolvedInterceptorConfig := ⟨false, 50, 1048576⟩

/-- A chain whose inner interceptor waits 200 ms before settling. -/
def chain200 : TimedResult := ⟨200, Except.ok ⟨[]⟩⟩

/-- Witness for C6: timeout 50, chain settling at 200 — the race fails with
the timeout error at 50 ms, not 200 ms. -/
theorem chain_timeout_race_witness :
    (0 < cfg50.timeout) ∧ (cfg50.timeout < chain200.time) ∧
    (executeWithTimeout cfg50 chain200 =
        ⟨50, Except.error (interceptorTimeoutError 50)⟩ ∧
      (executeWithTimeout cfg50 chain200).time < chain200.time ∧
      (interceptorTimeoutError 50).name = "InterceptorTimeoutError") :=
  ⟨by decide, by decide, chain_timeout_race cfg50 chain200 (by decide) (by decide)⟩

/-- C8: an invocation with an empty interceptor list is observably identical
to invoking the terminal handler (Transport + Normalizer) directly — same
messages, same failure — with no interceptor context allocated and no
interceptor timeout machinery engaged. -/
theorem empty_chain_zero_overhead (config : ResolvedInterceptorConfig)
    (options : ClaudeCodeOptions) (prompt : String)
    (transport : String → List CLIOutput) :
    processQuery [] config options prompt transport =
      directTerminalOutcome prompt transport ∧
    (processQuery [] config options prompt transport).contextAllocated = false ∧
    (processQuery [] config options prompt transport).timeoutEngaged = false :=
  ⟨rfl, rfl, rfl⟩

/-- C10: when the caller supplies interceptors but no `timeout` and no
`maxContextSize` key, the constructor defaults are in force — timeout 30000 ms
and maxContextSize 1048576 bytes — and a chain that takes longer than 30000 ms
loses the race with `InterceptorTimeoutError` even though no timeout was ever
configured. -/
theorem default_timeout_applies (userConfig : InterceptorConfig) (chain : TimedResult)
    ( _hsome : resolveInterceptors userConfig ≠ [])
    (hto : userConfig.timeout = none) (hmax : userConfig.maxContextSize = none)
    (hslow : 30000 < chain.time) :
    (resolveInterceptorConfig userConfig).timeout = 30000 ∧
    (resolveInterceptorConfig userConfig).maxContextSize = 1048576 ∧
    executeWithTimeout (resolveInterceptorConfig userConfig) chain =
      ⟨30000, Except.error (interceptorTimeoutError 30000)⟩ := by
  have htime : (resolveInterceptorConfig userConfig).timeout = 30000 := by
    simp [resolveInterceptorConfig, hto]
  have hmax2 : (resolveInterceptorConfig userConfig).maxContextSize = 1048576 := by
    simp [resolveInterceptorConfig, hmax]
  have h1 : ¬ chain.time ≤ (resolveInterceptorConfig userConfig).timeout := by
    rw [htime]; exact not_le.mpr hslow
  refine ⟨htime, hmax2, ?_⟩
  rw [executeWithTimeout, htime] at *
  simp [not_le.mp h1, Nat.not_le.mpr hslow]

/-- A user configuration supplying one interceptor and nothing else. -/
def cfgDefaultW : InterceptorConfig := { interceptors := some [probe 0] }

/-- A chain settling just past the default 30-second budget. -/
def chain30001 : TimedResult := ⟨30001, Except.ok ⟨[]⟩⟩

/-- Witness for C10: the defaults apply to `cfgDefaultW` and time out the
30001 ms chain. -/
theorem default_timeout_applies_witness :
    (resolveInterceptors cfgDefaultW ≠ []) ∧ (cfgDefaultW.timeout = none) ∧
    (cfgDefaultW.maxContextSize = none) ∧ (30000 < chain30001.time) ∧
    ((resolveInterceptorConfig cfgDefaultW).timeout = 30000 ∧
     (resolveInterceptorConfig cfgDefaultW).maxContextSize = 1048576 ∧
     executeWithTimeout (resolveInterceptorConfig cfgDefaultW) chain30001 =
       ⟨30000, Except.error (interceptorTimeoutError 30000)⟩) :=
  ⟨by simp [resolveInterceptors, cfgDefaultW], rfl, rfl, by decide,
    default_timeout_applies cfgDefaultW chain30001
      (by simp [resolveInterceptors, cfgDefaultW]) rfl rfl (by decide)⟩

end ClaudeSDK
